import Mathlib

/-!
Verification of the QTask broker core (`broker/managers/task.py`,
`broker/server.py`).

The Python code is shallowly embedded: JSON-like Python values become the
mutual inductives `PyVal`/`PyList`/`PyDict`, `Task.__init__` becomes the pure
function `Task.init` returning `Except PyError Task`, and the scheduler loop
`TaskManager._manage` becomes the executable scan functions `scanLoop` /
`runScans`, parametrised by a network oracle (which send attempts succeed)
and the current clock value.  Python floats are modelled as `Int` (the claims
only involve integral instants), and Python object identity on `Task` is
modelled as structural equality.
-/

deriving instance DecidableEq for Except

namespace QTask

/-- Split a character list at every occurrence of `sep` (Python
`str.split(sep)` with a one-character separator: `""` splits to `[""]`,
`"a::b"` to `["a", "", "b"]`). -/
def splitCharList (sep : Char) : List Char → List (List Char)
  | [] => [[]]
  | c :: cs =>
    match splitCharList sep cs with
    | [] => if c == sep then [[], []] else [[c]]
    | g :: gs => if c == sep then [] :: g :: gs else (c :: g) :: gs

/-- Python `link.split(sep)` for a one-character separator, computably over
the string's character list. -/
def pySplit (s : String) (sep : Char) : List String :=
  (splitCharList sep s.data).map (fun l => String.mk l)

/-- Decimal digits to a number, `none` on the empty list or any non-digit
character. -/
def natOfDigitsAux : List Char → Nat → Option Nat
  | [], acc => some acc
  | c :: cs, acc =>
    if c.isDigit then natOfDigitsAux cs (acc * 10 + (c.toNat - 48))
    else Option.none

/-- Decimal digits to a number; `none` when empty or containing a
non-digit. -/
def natOfDigits : List Char → Option Nat
  | [] => Option.none
  | c :: cs => natOfDigitsAux (c :: cs) 0

/-- Python `int(s)` on a plain decimal string (optional sign); `none` models
the `ValueError` raise.  (Python additionally strips whitespace and allows
`_` digit separators; no claim involves those.) -/
def pyToInt (s : String) : Option Int :=
  match s.data with
  | '-' :: rest => (natOfDigits rest).map (fun n => -(n : Int))
  | '+' :: rest => (natOfDigits rest).map (fun n => (n : Int))
  | cs => (natOfDigits cs).map (fun n => (n : Int))

mutual
/-- A JSON-like Python value, as produced by `json.loads` and stored in task
fields.  `PyVal.none` is Python `None` (also what `dict.get` returns for a
missing key). -/
inductive PyVal where
  | none : PyVal
  | bool (b : Bool) : PyVal
  | num (n : Int) : PyVal
  | str (s : String) : PyVal
  | list (xs : PyList) : PyVal
  | dict (es : PyDict) : PyVal
deriving Repr, DecidableEq

/-- A Python list of `PyVal`s. -/
inductive PyList where
  | nil : PyList
  | cons (v : PyVal) (tl : PyList) : PyList
deriving Repr, DecidableEq

/-- A Python dict with string keys and `PyVal` values (entries in insertion
order; keys are unique in any dict produced by `json.loads`). -/
inductive PyDict where
  | nil : PyDict
  | cons (k : String) (v : PyVal) (tl : PyDict) : PyDict
deriving Repr, DecidableEq
end

/-- Whether a Python list is empty. -/
def PyList.isEmpty : PyList → Bool
  | .nil => true
  | .cons _ _ => false

/-- Whether a Python dict is empty. -/
def PyDict.isEmpty : PyDict → Bool
  | .nil => true
  | .cons _ _ _ => false

/-- Python truthiness: `None`, `False`, `0`, `""`, `[]` and `{}` are falsy,
everything else is truthy. -/
def PyVal.truthy : PyVal → Bool
  | .none => false
  | .bool b => b
  | .num n => n != 0
  | .str s => !s.data.isEmpty
  | .list xs => !xs.isEmpty
  | .dict es => !es.isEmpty

/-- Look a key up in a dict: `some v` when present (first occurrence),
`none` when absent. -/
def PyDict.find : PyDict → String → Option PyVal
  | .nil, _ => Option.none
  | .cons k v tl, key => if k == key then some v else tl.find key

/-- Python `d.get(k)`: the stored value, or `None` when the key is absent. -/
def PyDict.get (d : PyDict) (k : String) : PyVal :=
  (d.find k).getD .none

/-- Python `d.get(k, default)`: the stored value, or `default` when the key
is absent. -/
def PyDict.getDflt (d : PyDict) (k : String) (dflt : PyVal) : PyVal :=
  (d.find k).getD dflt

/-- The Python exceptions the embedded code can raise.  `validateError` is
the project's `errors.ValidateError`; `netError` stands for the exceptions
raised by `socket.connect`/`socket.send`/`requests.get` on network
failure. -/
inductive PyError where
  | validateError (msg : String)
  | typeError
  | valueError
  | indexError
  | attributeError
  | netError
deriving Repr, DecidableEq

/-- The `Task` entity of `broker/managers/task.py`.  Fields mirror the
source attributes; `settings_time` is the absolute deadline computed in
`Task.__init__` as `settings.get('time') + time.time()`.  `title`,
`address_type` and `address_link` are kept as `PyVal` because the source
only ever checks them for truthiness, never for their type. -/
structure Task where
  title : PyVal
  address_type : PyVal
  address_link : PyVal
  settings_time : Int
  settings_data : PyVal
deriving Repr, DecidableEq

/-- `Task.__init__(data)` (task.py lines 37-63), with `now` standing for the
value of `time.time()` at construction.  The three truthiness checks and
their `ValidateError` messages are the source's; `settings.get('time') +
time.time()` raises `TypeError` when the (truthy) time value is not a
number (Python `True` is the number 1, and `False` is falsy, so booleans
never reach the error). -/
def Task.init (now : Int) (data : PyDict) : Except PyError Task :=
  let title := data.get "title"
  match data.get "address", data.get "settings" with
  | .dict address, .dict settings =>
    if !title.truthy then
      .error (.validateError "Missing key title or address or settings")
    else if !((address.get "type").truthy && (address.get "link").truthy) then
      .error (.validateError "Missing key type or link in address")
    else if !(settings.get "time").truthy then
      .error (.validateError "Missing key time in settings")
    else
      match settings.get "time" with
      | .num n =>
        .ok ⟨title, address.get "type", address.get "link", n + now,
             settings.getDflt "data" (.dict .nil)⟩
      | .bool _ =>
        .ok ⟨title, address.get "type", address.get "link", 1 + now,
             settings.getDflt "data" (.dict .nil)⟩
      | _ => .error .typeError
  | _, _ =>
    .error (.validateError "Missing key title or address or settings")

/-- The fixed `TaskManager.user_agents` table (task.py lines 84-95). -/
def user_agents : List String :=
  ["Mozilla/5.0 (Macintosh; Intel Mac OS X 10_15_7) AppleWebKit/537.36 (KHTML, like Gecko) Chrome/120.0.0.0 YaBrowser/24.1.0.0 Safari/537.36",
   "Mozilla/5.0 (X11; Linux x86_64) AppleWebKit/537.36 (KHTML, like Gecko) Chrome/120.0.0.0 YaBrowser/24.1.0.0 Safari/537.36",
   "Mozilla/5.0 (X11; Linux x86_64; rv:121.0) Gecko/20100101 Firefox/121.0",
   "Mozilla/5.0 (Windows NT 10.0; Win64; x64) AppleWebKit/537.36 (KHTML, like Gecko) Chrome/109.0.0.0 Safari/537.36",
   "Mozilla/5.0 (Macintosh; Intel Mac OS X 10_15_7) AppleWebKit/537.36 (KHTML, like Gecko) Chrome/109.0.0.0 Safari/537.36",
   "Mozilla/5.0 (Windows NT 10.0; Win64; x64) AppleWebKit/537.36 (KHTML, like Gecko) Chrome/108.0.0.0 Safari/537.36",
   "Mozilla/5.0 (Macintosh; Intel Mac OS X 10_15_7) AppleWebKit/537.36 (KHTML, like Gecko) Chrome/108.0.0.0 Safari/537.36",
   "Mozilla/5.0 (X11; Linux x86_64) AppleWebKit/537.36 (KHTML, like Gecko) Chrome/108.0.0.0 Safari/537.36",
   "Mozilla/5.0 (Macintosh; Intel Mac OS X 10_15_7) AppleWebKit/605.1.15 (KHTML, like Gecko) Version/16.1 Safari/605.1.15",
   "Mozilla/5.0 (Macintosh; Intel Mac OS X 13_1) AppleWebKit/605.1.15 (KHTML, like Gecko) Version/16.1 Safari/605.1.15"]

/-- `TaskManager._get_random_user_agent` (task.py lines 190-200), with the
choice of `random.choice` supplied as an index `r`. -/
def get_random_user_agent (r : Nat) : PyVal :=
  .dict (.cons "User-Agent"
    (.str (user_agents.getD (r % user_agents.length) "")) .nil)

/-- The single network action a dispatch performs: a bare GET
(`requests.get(link)`), a GET with data and headers
(`requests.get(link, data=data, headers=headers)`), or a TCP connect plus
write of the JSON-serialised payload. -/
inductive DispatchAction where
  | httpBareGet (link : PyVal)
  | httpGet (link : PyVal) (data : PyVal) (headers : PyVal)
  | socketSend (host : String) (port : Int) (payload : PyVal)
deriving Repr, DecidableEq

/-- The pure part of `TaskManager.__send_http` (task.py lines 169-188): which
GET is issued.  When `settings_data` is truthy the source reads
`data.get('headers', {})` — an `AttributeError` if the truthy payload is not
a dict — and replaces the literal `'auto'` by a random user agent.  `r` is
the random choice used in that case. -/
def send_http_action (r : Nat) (task : Task) : Except PyError DispatchAction :=
  if task.settings_data.truthy then
    match task.settings_data with
    | .dict d =>
      let headers := d.getDflt "headers" (.dict .nil)
      let headers := if headers == PyVal.str "auto" then get_random_user_agent r
                     else headers
      .ok (.httpGet task.address_link task.settings_data headers)
    | _ => .error .attributeError
  else
    .ok (.httpBareGet task.address_link)

/-- The address parsing of `TaskManager.__send_socket` (task.py lines
161-164): `HOST = link.split(':')[0]`, `PORT = link.split(':')[1]`,
`int(PORT)`.  A link with no `':'` raises `IndexError`, a non-integer port
raises `ValueError`, and a non-string link raises `AttributeError` at
`.split`. -/
def send_socket_parse (task : Task) : Except PyError (String × Int) :=
  match task.address_link with
  | .str link =>
    match pySplit link ':' with
    | [] => .error .indexError
    | [_] => .error .indexError
    | h :: p :: _ =>
      match pyToInt p with
      | some n => .ok (h, n)
      | Option.none => .error .valueError
  | _ => .error .attributeError

/-- `TaskManager.remove_task` (task.py lines 106-113), i.e. Python
`list.remove`: delete the first occurrence, raise `ValueError` when the task
is not present. -/
def remove_task : List Task → Task → Except PyError (List Task)
  | [], _ => .error .valueError
  | x :: xs, t =>
    if x == t then .ok xs
    else
      match remove_task xs t with
      | .ok ys => .ok (x :: ys)
      | .error e => .error e

/-- `TaskManager.append_task` (task.py lines 97-104): `list.append`. -/
def append_task (ts : List Task) (t : Task) : List Task :=
  ts ++ [t]

/-- One dispatch attempt as recorded by a scan: the task, the network action
computed for it, and whether the network call succeeded. -/
structure DispatchEvent where
  task : Task
  action : DispatchAction
  ok : Bool
deriving Repr, DecidableEq

/-- Result of one pass of the `for task in self.__tasks` loop of
`TaskManager._manage`: the store afterwards, the dispatch attempts made (in
order), and the exception that escaped the pass, if any (the source has no
`try`/`except`, so any exception aborts the pass and kills the scheduler
thread). -/
structure ScanResult where
  store : List Task
  log : List DispatchEvent
  err : Option PyError
deriving Repr, DecidableEq

/-- One pass of the `for task in self.__tasks:` loop of `TaskManager._manage`
(task.py lines 142-150), with Python's index-based list iteration made
explicit: the iterator reads index `i` of the *live* list, so when a
dispatch removes the current element the element after it is skipped.  A due
`http`/`socket` task is sent (`net` says whether the network call succeeds)
and then removed by `remove_task`; a task of any other `address_type` is
left alone; any exception is returned in `ScanResult.err` and aborts the
pass.  `fuel` only bounds the iteration count for termination; `ts.length`
steps always suffice because every step either advances `i` past an element
or removes one. -/
def scanLoopAux (net : Task → Bool) (r : Nat) (now : Int) :
    Nat → List Task → Nat → ScanResult
  | 0, ts, _ => ⟨ts, [], Option.none⟩
  | fuel + 1, ts, i =>
    if h : i < ts.length then
      let task := ts[i]
      if !(task.settings_time ≤ now) then
        scanLoopAux net r now fuel ts (i + 1)
      else if task.address_type == PyVal.str "http" then
        match send_http_action r task with
        | .error e => ⟨ts, [], some e⟩
        | .ok a =>
          if net task then
            match remove_task ts task with
            | .error e => ⟨ts, [⟨task, a, true⟩], some e⟩
            | .ok ts' =>
              let rest := scanLoopAux net r now fuel ts' (i + 1)
              ⟨rest.store, ⟨task, a, true⟩ :: rest.log, rest.err⟩
          else ⟨ts, [⟨task, a, false⟩], some .netError⟩
      else if task.address_type == PyVal.str "socket" then
        match send_socket_parse task with
        | .error e => ⟨ts, [], some e⟩
        | .ok (host, port) =>
          if net task then
            match remove_task ts task with
            | .error e => ⟨ts, [⟨task, .socketSend host port task.settings_data, true⟩], some e⟩
            | .ok ts' =>
              let rest := scanLoopAux net r now fuel ts' (i + 1)
              ⟨rest.store, ⟨task, .socketSend host port task.settings_data, true⟩ :: rest.log,
               rest.err⟩
          else ⟨ts, [⟨task, .socketSend host port task.settings_data, false⟩], some .netError⟩
      else
        scanLoopAux net r now fuel ts (i + 1)
    else ⟨ts, [], Option.none⟩

/-- One full scan of the store at clock value `now`. -/
def scanLoop (net : Task → Bool) (r : Nat) (now : Int) (ts : List Task) : ScanResult :=
  scanLoopAux net r now ts.length ts 0

/-- Result of a bounded prefix of the infinite `while True` loop of
`TaskManager._manage`: the store, the dispatch attempts stamped with the
clock value of their scan, and the exception that killed the loop, if
any. -/
structure RunResult where
  store : List Task
  log : List (Int × DispatchEvent)
  err : Option PyError
deriving Repr, DecidableEq

/-- `k` iterations of the `while True:` loop of `TaskManager._manage`
(task.py lines 142-150): a scan at clock value `t0`, then `time.sleep(T)`
(`T` is the `TIMEOUT` poll interval from `broker.config`), then the next
scan at `t0 + T`, and so on.  An exception escaping a scan terminates the
loop (and with it the daemon thread started by `manage`): no further scans
happen. -/
def runScans (net : Task → Bool) (r : Nat) (T : Int) :
    Nat → Int → List Task → RunResult
  | 0, _, ts => ⟨ts, [], Option.none⟩
  | k + 1, t0, ts =>
    let s := scanLoop net r t0 ts
    match s.err with
    | some e => ⟨s.store, s.log.map (fun ev => (t0, ev)), some e⟩
    | Option.none =>
      let rest := runScans net r T k (t0 + T) s.store
      ⟨rest.store, s.log.map (fun ev => (t0, ev)) ++ rest.log, rest.err⟩

/-- Class-level state of `TaskManager`: the class attribute table touched by
`__new__` (attribute name → id of the instance object stored there), the
class-level `__tasks` list (task.py line 82) shared by all instances, and a
counter supplying the id of the next freshly allocated instance object
(modelling Python object identity). -/
structure TMState where
  classAttrs : List (String × Nat)
  tasks : List Task
  nextId : Nat
deriving Repr, DecidableEq

/-- `setattr` on the class attribute table: replace the binding of `k`, or
add it. -/
def setAttr : List (String × Nat) → String → Nat → List (String × Nat)
  | [], k, v => [(k, v)]
  | (k', v') :: tl, k, v =>
    if k' == k then (k, v) :: tl else (k', v') :: setAttr tl k v

/-- `TaskManager.__new__` (task.py lines 202-211).  The guard tests
`hasattr(cls, 'instance')`, but the assignment `cls.__instance = ...` is
name-mangled to the attribute `_TaskManager__instance`, so an attribute
named plain `instance` is never created.  Returns the updated class state
and the id of the object `cls.__instance` the call returns. -/
def TaskManager.new (s : TMState) : TMState × Nat :=
  if (s.classAttrs.lookup "instance").isSome then
    (s, (s.classAttrs.lookup "_TaskManager__instance").getD 0)
  else
    (⟨setAttr s.classAttrs "_TaskManager__instance" s.nextId, s.tasks, s.nextId + 1⟩,
     s.nextId)

/-- `TaskManager.append_task` invoked on the instance with id `inst`:
`self.__tasks` is not an instance attribute, so the lookup finds the single
class-level list and appends to it, whatever the instance. -/
def TaskManager.append_task_via (s : TMState) (_inst : Nat) (t : Task) : TMState :=
  ⟨s.classAttrs, append_task s.tasks t, s.nextId⟩

/-- `TaskManager.get_tasks` invoked on the instance with id `inst`: returns
the class-level list. -/
def TaskManager.get_tasks_via (s : TMState) (_inst : Nat) : List Task :=
  s.tasks

/-- `TaskManager.remove_task` invoked on the instance with id `inst`:
`list.remove` on the class-level list. -/
def TaskManager.remove_task_via (s : TMState) (_inst : Nat) (t : Task) :
    Except PyError TMState :=
  match remove_task s.tasks t with
  | .ok ts => .ok ⟨s.classAttrs, ts, s.nextId⟩
  | .error e => .error e

/-! Concrete values used by witnesses and counterexamples. -/

/-- The C4 scenario submission, with link `li` and delay `n`:
`{"title": "ping", "address": {"type": "http", "link": li},
"settings": {"time": n}}`. -/
def pingPayload (li : String) (n : Int) : PyDict :=
  .cons "title" (.str "ping")
    (.cons "address"
      (.dict (.cons "type" (.str "http") (.cons "link" (.str li) .nil)))
      (.cons "settings" (.dict (.cons "time" (.num n) .nil)) .nil))

/-- A validated http task due at instant 0. -/
def taskA : Task :=
  ⟨.str "a", .str "http", .str "http://a.test/", 0, .dict .nil⟩

/-- A second http task, due at instant 5. -/
def taskB1 : Task :=
  ⟨.str "b1", .str "http", .str "http://b1.test/", 5, .dict .nil⟩

/-- A third http task, due at instant 5, used to exhibit the scan-skip. -/
def taskB2 : Task :=
  ⟨.str "b2", .str "http", .str "http://b2.test/", 5, .dict .nil⟩

/-- The socket task of the C2 scenario: target `127.0.0.1:9`, due at 0. -/
def taskSock : Task :=
  ⟨.str "s", .str "socket", .str "127.0.0.1:9", 0, .dict .nil⟩

/-- A submission whose `address.type` is `"ftp"` (neither `http` nor
`socket`). -/
def ftpPayload : PyDict :=
  .cons "title" (.str "t")
    (.cons "address"
      (.dict (.cons "type" (.str "ftp") (.cons "link" (.str "x") .nil)))
      (.cons "settings" (.dict (.cons "time" (.num 5) .nil)) .nil))

/-- A submission with a negative delay (`settings.time = -5`). -/
def negPayload : PyDict :=
  .cons "title" (.str "t")
    (.cons "address"
      (.dict (.cons "type" (.str "http") (.cons "link" (.str "http://x") .nil)))
      (.cons "settings" (.dict (.cons "time" (.num (-5)) .nil)) .nil))

/-- A submission whose `address.type` is `http` but whose link has no
`http://`/`https://` prefix. -/
def notaurlPayload : PyDict :=
  .cons "title" (.str "t")
    (.cons "address"
      (.dict (.cons "type" (.str "http") (.cons "link" (.str "notaurl") .nil)))
      (.cons "settings" (.dict (.cons "time" (.num 3) .nil)) .nil))

/-- Stated from the amended claim C5: the exact set of submissions on which
`Task.__init__` raises `ValidateError` — `title` falsy, `address` or
`settings` not a dict, `address.type` or `address.link` falsy, or
`settings.time` falsy.  (In particular `time = 0` is rejected, a negative
`time` is accepted, and `address.type` is not compared against
`{http, socket}`.) -/
def validate_rejects (data : PyDict) : Bool :=
  match data.get "address", data.get "settings" with
  | .dict address, .dict settings =>
    !(data.get "title").truthy
      || !((address.get "type").truthy && (address.get "link").truthy)
      || !(settings.get "time").truthy
  | _, _ => true

/-! Helper lemmas about the embedded operations. -/

theorem remove_task_eq (ts : List Task) (t : Task) :
    remove_task ts t = if t ∈ ts then .ok (ts.erase t) else .error .valueError := by
  induction ts with
  | nil => simp [remove_task]
  | cons x xs ih =>
    by_cases h : x = t
    · subst h
      simp [remove_task, List.erase_cons_head]
    · have hb : (x == t) = false := by simp [h]
      have hxt : ¬t = x := fun hc => h hc.symm
      have herase : (x :: xs).erase t = x :: xs.erase t := by
        rw [List.erase_cons_tail]
        simp [hb]
      by_cases hmem : t ∈ xs
      · have hmem2 : t ∈ x :: xs := List.mem_cons_of_mem x hmem
        simp [remove_task, hb, ih, hmem, hmem2, herase]
      · have hmem2 : t ∉ x :: xs := by simp [List.mem_cons, hxt, hmem]
        simp [remove_task, hb, ih, hmem, hmem2]

theorem remove_task_ok_of_mem (ts : List Task) (t : Task) (h : t ∈ ts) :
    remove_task ts t = .ok (ts.erase t) := by
  simp [remove_task_eq, h]

theorem remove_task_error_of_not_mem (ts : List Task) (t : Task) (h : t ∉ ts) :
    remove_task ts t = .error .valueError := by
  simp [remove_task_eq, h]

theorem lookup_setAttr_ne (attrs : List (String × Nat)) (k k' : String) (v : Nat)
    (h : (k == k') = false) : (setAttr attrs k' v).lookup k = attrs.lookup k := by
  induction attrs with
  | nil => simp [setAttr, List.lookup, h]
  | cons p tl ih =>
    rcases p with ⟨k0, v0⟩
    by_cases h0 : (k0 == k') = true
    · have hk0 : k0 = k' := by simpa using h0
      subst hk0
      simp [setAttr, List.lookup, h]
    · have h0f : (k0 == k') = false := by simpa using h0
      by_cases hk : (k == k0) = true
      · simp [setAttr, List.lookup, h0f, hk]
      · have hkf : (k == k0) = false := by simpa using hk
        simp [setAttr, List.lookup, h0f, hkf, ih]

/-- When `hasattr(cls, 'instance')` is false (as it always is at class
creation and stays forever), `__new__` allocates a fresh object, stores it
under the mangled attribute, and returns it. -/
theorem TaskManager.new_of_no_instance (s : TMState)
    (h : s.classAttrs.lookup "instance" = Option.none) :
    TaskManager.new s
      = (⟨setAttr s.classAttrs "_TaskManager__instance" s.nextId, s.tasks, s.nextId + 1⟩,
         s.nextId) := by
  have hguard : (s.classAttrs.lookup "instance").isSome = false := by simp [h]
  simp [TaskManager.new, hguard]

/-! Claim theorems. -/

/-- Claim C4, counterexample: the spec's own scenario submission
`{"title": "ping", "address": {"type": "http", "link":
"http://example.test/x"}, "settings": {"time": 0}}` is not accepted — the
truthiness test `if not settings.get('time')` treats the delay `0` as a
missing key and `Task.__init__` raises `ValidateError`. -/
theorem C4_counterexample :
    Task.init 50 (pingPayload "http://example.test/x" 0)
      = .error (.validateError "Missing key time in settings") := by decide

/-- Claim C4, amended: a delay of `0` is rejected as missing; for any
nonzero delay (with non-empty link) the submission is accepted with
deadline `time + now`, and once due the task fires on a scan as a bare GET
to the link and the store returns to empty. -/
theorem C4_amended (now now2 n : Int) (li : String)
    (hn : n ≠ 0) (hli : li ≠ "") (hdue : n + now ≤ now2) :
    Task.init now (pingPayload li 0)
        = .error (.validateError "Missing key time in settings")
    ∧ Task.init now (pingPayload li n)
        = .ok ⟨.str "ping", .str "http", .str li, n + now, .dict .nil⟩
    ∧ scanLoop (fun _ => true) 0 now2
          [⟨.str "ping", .str "http", .str li, n + now, .dict .nil⟩]
        = ⟨[], [⟨⟨.str "ping", .str "http", .str li, n + now, .dict .nil⟩,
                 .httpBareGet (.str li), true⟩], Option.none⟩ := by
  have hdata : li.data ≠ [] := fun hc => hli (String.ext hc)
  refine ⟨?_, ?_, ?_⟩
  · simp [Task.init, pingPayload, PyDict.get, PyDict.find, PyVal.truthy, hdata]
  · simp [Task.init, pingPayload, PyDict.get, PyDict.getDflt, PyDict.find,
          PyVal.truthy, hn, hdata]
  · simp [scanLoop, scanLoopAux, send_http_action, PyVal.truthy, PyDict.isEmpty,
          remove_task, hdue]

/-- Claim C4, witness for the amended theorem at the scenario's own link and
delay 5, scanned at instant 5. -/
theorem C4_witness :
    Task.init 0 (pingPayload "http://example.test/x" 0)
        = .error (.validateError "Missing key time in settings")
    ∧ Task.init 0 (pingPayload "http://example.test/x" 5)
        = .ok ⟨.str "ping", .str "http", .str "http://example.test/x", 5 + 0, .dict .nil⟩
    ∧ scanLoop (fun _ => true) 0 5
          [⟨.str "ping", .str "http", .str "http://example.test/x", 5 + 0, .dict .nil⟩]
        = ⟨[], [⟨⟨.str "ping", .str "http", .str "http://example.test/x", 5 + 0, .dict .nil⟩,
                 .httpBareGet (.str "http://example.test/x"), true⟩], Option.none⟩ :=
  C4_amended 0 5 5 "http://example.test/x" (by decide) (by decide) (by decide)

/-- Claim C5, counterexample: `address.type = "ftp"` (not in
`{http, socket}`) and a negative delay `time = -5` are both accepted by
`Task.__init__`, although the claim requires a `ValidationError` for the
former and calls only non-negative delays valid. -/
theorem C5_counterexample :
    Task.init 100 ftpPayload = .ok ⟨.str "t", .str "ftp", .str "x", 105, .dict .nil⟩
    ∧ Task.init 100 negPayload
        = .ok ⟨.str "t", .str "http", .str "http://x", 95, .dict .nil⟩ := by decide

/-- Claim C5, amended: `Task.__init__` raises `ValidateError` exactly when
`title` is falsy, `address` or `settings` is not a dict, `address.type` or
`address.link` is falsy, or `settings.time` is falsy.  The membership of
`type` in `{http, socket}` is never checked, a negative delay is accepted,
a zero delay is rejected, and a truthy non-numeric delay raises `TypeError`
instead.  Construction has no side effects (it is a pure function). -/
theorem C5_amended (now : Int) (data : PyDict) :
    (∃ msg, Task.init now data = .error (.validateError msg))
      ↔ validate_rejects data = true := by
  rcases ha : data.get "address" with _ | b | m | s | xs | address <;>
    rcases hset : data.get "settings" with _ | b' | m' | s' | xs' | settings <;>
      simp only [Task.init, validate_rejects, ha, hset]
  any_goals (simp; done)
  by_cases h1 : (data.get "title").truthy = true
  · by_cases h2 : ((address.get "type").truthy && (address.get "link").truthy) = true
    · by_cases h3 : (settings.get "time").truthy = true
      · rcases ht : settings.get "time" with _ | b | n | s | xs | d
        · rw [ht] at h3
          exact absurd h3 (by decide)
        all_goals (rw [ht] at h3; simp [h1, h2, h3, ht])
      · have h3f : (settings.get "time").truthy = false := by simpa using h3
        simp [h1, h2, h3f]
    · have h2f : ((address.get "type").truthy && (address.get "link").truthy) = false := by
        simpa using h2
      simp [h1, h2f]
  · have h1f : (data.get "title").truthy = false := by simpa using h1
    simp [h1f]

/-- Claim C6, counterexample: removing a present task succeeds, but the
second removal of the same task raises `ValueError` — `list.remove` is not
an idempotent boolean-returning `removeIfPresent`. -/
theorem C6_counterexample :
    remove_task [taskA] taskA = .ok []
    ∧ remove_task ([] : List Task) taskA = .error .valueError := by decide

/-- Claim C6, amended: when the store holds exactly one copy of a task,
`remove_task` deletes it, and calling `remove_task` again for the same task
raises `ValueError` (Python `list.remove` on an absent element) instead of
being a harmless no-op; no boolean is returned. -/
theorem C6_amended (ts : List Task) (t : Task) (h : ts.count t = 1) :
    remove_task ts t = .ok (ts.erase t)
    ∧ remove_task (ts.erase t) t = .error .valueError := by
  have hm : t ∈ ts := by
    have : 0 < ts.count t := by omega
    exact List.count_pos_iff.mp this
  have hzero : (ts.erase t).count t = 0 := by
    rw [List.count_erase_self, h]
  have hnot : t ∉ ts.erase t := List.count_eq_zero.mp hzero
  exact ⟨remove_task_ok_of_mem ts t hm, remove_task_error_of_not_mem _ t hnot⟩

/-- Claim C6, witness for the amended theorem on a one-task store. -/
theorem C6_witness :
    remove_task [taskA] taskA = .ok ([taskA].erase taskA)
    ∧ remove_task ([taskA].erase taskA) taskA = .error .valueError :=
  C6_amended [taskA] taskA (by decide)

/-- Claim C7, counterexample: a task whose `address.type` is `http` and
whose link `"notaurl"` starts with neither `http://` nor `https://` is
admitted by the validator, so the claimed invariant fails for stored
tasks. -/
theorem C7_counterexample :
    Task.init 0 notaurlPayload
      = .ok ⟨.str "t", .str "http", .str "notaurl", 3, .dict .nil⟩
    ∧ "http://".data.isPrefixOf "notaurl".data = false
    ∧ "https://".data.isPrefixOf "notaurl".data = false := by decide

/-- Claim C7, amended: the validator enforces no format on addresses at
all — any truthy `title`, `type` and `link` (with a truthy numeric delay)
are accepted verbatim, whatever their shape; `host:port` parsing happens
only at dispatch time inside `__send_socket`. -/
theorem C7_amended (now n : Int) (title ty link : PyVal)
    (h1 : title.truthy = true) (h2 : ty.truthy = true) (h3 : link.truthy = true)
    (hn : n ≠ 0) :
    Task.init now
        (.cons "title" title
          (.cons "address" (.dict (.cons "type" ty (.cons "link" link .nil)))
            (.cons "settings" (.dict (.cons "time" (.num n) .nil)) .nil)))
      = .ok ⟨title, ty, link, n + now, .dict .nil⟩ := by
  have htime : (PyVal.num n).truthy = true := by simp [PyVal.truthy, hn]
  simp [Task.init, PyDict.get, PyDict.getDflt, PyDict.find, h1, h2, h3, htime]

/-- Claim C7, witness for the amended theorem: the malformed link
`"notaurl"` under type `http`, and title `"x"`. -/
theorem C7_witness :
    Task.init 0
        (.cons "title" (.str "x")
          (.cons "address"
            (.dict (.cons "type" (.str "http") (.cons "link" (.str "notaurl") .nil)))
            (.cons "settings" (.dict (.cons "time" (.num 3) .nil)) .nil)))
      = .ok ⟨.str "x", .str "http", .str "notaurl", 3 + 0, .dict .nil⟩ :=
  C7_amended 0 3 (.str "x") (.str "http") (.str "notaurl")
    (by decide) (by decide) (by decide) (by decide)

/-- Claim C9, confirmed: whenever `Task.__init__` accepts a submission whose
`settings.time` is the number `n`, the stored deadline `settings_time` is
exactly `n` plus the construction instant (`settings.get('time') +
time.time()`), i.e. submission time plus the requested delay. -/
theorem C9_deadline (now : Int) (data settings : PyDict) (n : Int) (t : Task)
    (hs : data.get "settings" = .dict settings)
    (hn : settings.get "time" = .num n)
    (hok : Task.init now data = .ok t) :
    t.settings_time = n + now := by
  cases ha : data.get "address" with
  | dict address =>
    simp only [Task.init, ha, hs, hn] at hok
    split_ifs at hok
    all_goals first
      | exact Except.noConfusion hok
      | (cases hok; rfl)
  | none =>
    simp only [Task.init, ha, hs] at hok
    exact Except.noConfusion hok
  | bool b =>
    simp only [Task.init, ha, hs] at hok
    exact Except.noConfusion hok
  | num m =>
    simp only [Task.init, ha, hs] at hok
    exact Except.noConfusion hok
  | str s =>
    simp only [Task.init, ha, hs] at hok
    exact Except.noConfusion hok
  | list xs =>
    simp only [Task.init, ha, hs] at hok
    exact Except.noConfusion hok

/-- Claim C9, witness: delay 7 submitted at instant 3 yields deadline 10. -/
theorem C9_witness :
    (⟨.str "ping", .str "http", .str "http://x", 10, .dict .nil⟩ : Task).settings_time
      = 7 + 3 :=
  C9_deadline 3 (pingPayload "http://x" 7) (.cons "time" (.num 7) .nil) 7
    ⟨.str "ping", .str "http", .str "http://x", 10, .dict .nil⟩
    (by decide) (by decide) (by decide)

/-- Claim C10, confirmed: because `__new__` tests `hasattr(cls, 'instance')`
but assigns the name-mangled `_TaskManager__instance`, the guard never
fires: each constructor call returns a fresh object (distinct ids) and the
attribute `instance` is still never set afterwards.  Yet the class-level
`__tasks` list is shared: a task appended through instance `i` is visible
through `get_tasks` on any instance `j`, and removable through `j`. -/
theorem C10_fresh_but_shared (s : TMState) (i j : Nat) (t : Task)
    (h : s.classAttrs.lookup "instance" = Option.none) :
    ((TaskManager.new s).2 = s.nextId
      ∧ (TaskManager.new (TaskManager.new s).1).2 = s.nextId + 1
      ∧ (TaskManager.new s).2 ≠ (TaskManager.new (TaskManager.new s).1).2)
    ∧ (TaskManager.new s).1.classAttrs.lookup "instance" = Option.none
    ∧ TaskManager.get_tasks_via (TaskManager.append_task_via s i t) j
        = TaskManager.get_tasks_via s j ++ [t]
    ∧ (TaskManager.remove_task_via (TaskManager.append_task_via s i t) j t).isOk
        = true := by
  have hmangle : (("instance" : String) == "_TaskManager__instance") = false := by decide
  have hnew := TaskManager.new_of_no_instance s h
  have hpres : (TaskManager.new s).1.classAttrs.lookup "instance" = Option.none := by
    rw [hnew]
    simpa [lookup_setAttr_ne _ _ _ _ hmangle] using h
  have hnew2 := TaskManager.new_of_no_instance (TaskManager.new s).1 hpres
  refine ⟨⟨by rw [hnew], ?_, ?_⟩, hpres, ?_, ?_⟩
  · rw [hnew2, hnew]
  · rw [hnew2, hnew]
    simp
  · simp [TaskManager.get_tasks_via, TaskManager.append_task_via, append_task]
  · have hmem : t ∈ s.tasks ++ [t] := by simp
    simp [TaskManager.remove_task_via, TaskManager.append_task_via, append_task,
          remove_task_ok_of_mem _ t hmem, Except.isOk, Except.toBool]

/-- Claim C10, witness on a fresh class state and two instance ids. -/
theorem C10_witness :
    (((TaskManager.new ⟨[], [], 0⟩).2 = 0
      ∧ (TaskManager.new (TaskManager.new ⟨[], [], 0⟩).1).2 = 0 + 1
      ∧ (TaskManager.new ⟨[], [], 0⟩).2
          ≠ (TaskManager.new (TaskManager.new ⟨[], [], 0⟩).1).2)
    ∧ (TaskManager.new ⟨[], [], 0⟩).1.classAttrs.lookup "instance" = Option.none
    ∧ TaskManager.get_tasks_via (TaskManager.append_task_via ⟨[], [], 0⟩ 0 taskA) 1
        = TaskManager.get_tasks_via ⟨[], [], 0⟩ 1 ++ [taskA]
    ∧ (TaskManager.remove_task_via (TaskManager.append_task_via ⟨[], [], 0⟩ 0 taskA) 1
        taskA).isOk = true) :=
  C10_fresh_but_shared ⟨[], [], 0⟩ 0 1 taskA (by decide)

theorem remove_task_ok_elim {ts ts' : List Task} {t : Task}
    (h : remove_task ts t = .ok ts') : ts' = ts.erase t := by
  rw [remove_task_eq] at h
  by_cases hm : t ∈ ts
  · simp [hm] at h
    exact h.symm
  · simp [hm] at h

/-- Every task in the store after a scan pass was in the store before, and
every task the pass attempted to dispatch was in the store and was due. -/
theorem scanLoopAux_basic (net : Task → Bool) (r : Nat) (now : Int) :
    ∀ (fuel : Nat) (ts : List Task) (i : Nat),
      (∀ t ∈ (scanLoopAux net r now fuel ts i).store, t ∈ ts)
      ∧ (∀ e ∈ (scanLoopAux net r now fuel ts i).log,
          e.task ∈ ts ∧ e.task.settings_time ≤ now) := by
  intro fuel
  induction fuel with
  | zero =>
    intro ts i
    simp [scanLoopAux]
  | succ fuel ih =>
    intro ts i
    rcases hs : scanLoopAux net r now (fuel + 1) ts i with ⟨store, log, err⟩
    rw [scanLoopAux] at hs
    dsimp only
    split at hs
    · rename_i h
      simp only [] at hs
      split at hs
      · -- task not yet due: plain skip to the next index
        have hrec := ih ts (i + 1)
        rw [hs] at hrec
        simpa using hrec
      · rename_i hdue
        have hdue' : ts[i].settings_time ≤ now := by simpa using hdue
        have hmem : ts[i] ∈ ts := List.getElem_mem h
        split at hs
        · -- http task
          split at hs
          · -- send_http_action raised before any network call
            cases hs
            simp
          · -- action computed; network oracle decides
            split at hs
            · -- network call succeeded, then remove_task
              split at hs
              · -- removal raised (task not present): store unchanged
                cases hs
                constructor
                · intro t ht
                  exact ht
                · intro e he
                  rcases List.mem_singleton.mp he with rfl
                  exact ⟨hmem, hdue'⟩
              · -- removal succeeded: recurse on the shrunk list
                rename_i ts' hrem
                have hts' : ts' = ts.erase ts[i] := remove_task_ok_elim hrem
                cases hs
                constructor
                · intro t ht
                  have := (ih ts' (i + 1)).1 t ht
                  rw [hts'] at this
                  exact List.mem_of_mem_erase this
                · intro e he
                  rcases List.mem_cons.mp he with rfl | he'
                  · exact ⟨hmem, hdue'⟩
                  · have := (ih ts' (i + 1)).2 e he'
                    rw [hts'] at this
                    exact ⟨List.mem_of_mem_erase this.1, this.2⟩
            · -- network call failed: pass aborts
              cases hs
              constructor
              · intro t ht
                exact ht
              · intro e he
                rcases List.mem_singleton.mp he with rfl
                exact ⟨hmem, hdue'⟩
        · -- not http
          split at hs
          · -- socket task
            split at hs
            · -- address parsing raised before any network call
              cases hs
              simp
            · split at hs
              · split at hs
                · cases hs
                  constructor
                  · intro t ht
                    exact ht
                  · intro e he
                    rcases List.mem_singleton.mp he with rfl
                    exact ⟨hmem, hdue'⟩
                · rename_i ts' hrem
                  have hts' : ts' = ts.erase ts[i] := remove_task_ok_elim hrem
                  cases hs
                  constructor
                  · intro t ht
                    have := (ih ts' (i + 1)).1 t ht
                    rw [hts'] at this
                    exact List.mem_of_mem_erase this
                  · intro e he
                    rcases List.mem_cons.mp he with rfl | he'
                    · exact ⟨hmem, hdue'⟩
                    · have := (ih ts' (i + 1)).2 e he'
                      rw [hts'] at this
                      exact ⟨List.mem_of_mem_erase this.1, this.2⟩
              · cases hs
                constructor
                · intro t ht
                  exact ht
                · intro e he
                  rcases List.mem_singleton.mp he with rfl
                  exact ⟨hmem, hdue'⟩
          · -- neither http nor socket: the loop leaves the task alone
            have hrec := ih ts (i + 1)
            rw [hs] at hrec
            simpa using hrec
    · -- iterator exhausted
      cases hs
      simp

/-- Under a duplicate-free store, one scan pass keeps the store
duplicate-free, attempts each task at most once, and — when the pass
finished without an exception — has removed every task it dispatched from
the store. -/
theorem scanLoopAux_nodup (net : Task → Bool) (r : Nat) (now : Int) :
    ∀ (fuel : Nat) (ts : List Task) (i : Nat), ts.Nodup →
      (scanLoopAux net r now fuel ts i).store.Nodup
      ∧ ((scanLoopAux net r now fuel ts i).log.map (fun e => e.task)).Nodup
      ∧ ((scanLoopAux net r now fuel ts i).err = Option.none →
          ∀ e ∈ (scanLoopAux net r now fuel ts i).log,
            e.task ∉ (scanLoopAux net r now fuel ts i).store) := by
  intro fuel
  induction fuel with
  | zero =>
    intro ts i hnd
    simp [scanLoopAux, hnd]
  | succ fuel ih =>
    intro ts i hnd
    rcases hs : scanLoopAux net r now (fuel + 1) ts i with ⟨store, log, err⟩
    rw [scanLoopAux] at hs
    dsimp only
    split at hs
    · rename_i h
      simp only [] at hs
      split at hs
      · -- not due: skip
        have hrec := ih ts (i + 1) hnd
        rw [hs] at hrec
        simpa using hrec
      · rename_i hdue
        split at hs
        · -- http task
          split at hs
          · -- send_http_action raised
            cases hs
            exact ⟨hnd, by simp, by simp⟩
          · split at hs
            · split at hs
              · -- remove_task raised
                cases hs
                exact ⟨hnd, by simp, by simp⟩
              · -- removed, recurse
                rename_i ts' hrem
                have hts' : ts' = ts.erase ts[i] := remove_task_ok_elim hrem
                have hnd' : ts'.Nodup := by
                  rw [hts']
                  exact hnd.erase ts[i]
                have hnotin : ts[i] ∉ ts' := by
                  rw [hts']
                  exact hnd.not_mem_erase
                have hrec := ih ts' (i + 1) hnd'
                have hbasic := scanLoopAux_basic net r now fuel ts' (i + 1)
                cases hs
                refine ⟨hrec.1, ?_, ?_⟩
                · rw [List.map_cons, List.nodup_cons]
                  refine ⟨?_, hrec.2.1⟩
                  intro hmm
                  rcases List.mem_map.mp hmm with ⟨e, he, heq⟩
                  have heq' : e.task = ts[i] := heq
                  exact hnotin (heq' ▸ (hbasic.2 e he).1)
                · intro hnone e he
                  rcases List.mem_cons.mp he with rfl | he'
                  · intro hc
                    exact hnotin (hbasic.1 _ hc)
                  · exact hrec.2.2 hnone e he'
            · -- network failure: pass aborts with the task still stored
              cases hs
              exact ⟨hnd, by simp, by simp⟩
        · split at hs
          · -- socket task
            split at hs
            · cases hs
              exact ⟨hnd, by simp, by simp⟩
            · split at hs
              · split at hs
                · cases hs
                  exact ⟨hnd, by simp, by simp⟩
                · rename_i ts' hrem
                  have hts' : ts' = ts.erase ts[i] := remove_task_ok_elim hrem
                  have hnd' : ts'.Nodup := by
                    rw [hts']
                    exact hnd.erase ts[i]
                  have hnotin : ts[i] ∉ ts' := by
                    rw [hts']
                    exact hnd.not_mem_erase
                  have hrec := ih ts' (i + 1) hnd'
                  have hbasic := scanLoopAux_basic net r now fuel ts' (i + 1)
                  cases hs
                  refine ⟨hrec.1, ?_, ?_⟩
                  · rw [List.map_cons, List.nodup_cons]
                    refine ⟨?_, hrec.2.1⟩
                    intro hmm
                    rcases List.mem_map.mp hmm with ⟨e, he, heq⟩
                    have heq' : e.task = ts[i] := heq
                    exact hnotin (heq' ▸ (hbasic.2 e he).1)
                  · intro hnone e he
                    rcases List.mem_cons.mp he with rfl | he'
                    · intro hc
                      exact hnotin (hbasic.1 _ hc)
                    · exact hrec.2.2 hnone e he'
              · cases hs
                exact ⟨hnd, by simp, by simp⟩
          · -- neither http nor socket
            have hrec := ih ts (i + 1) hnd
            rw [hs] at hrec
            simpa using hrec
    · cases hs
      simp [hnd]

theorem scanLoop_basic (net : Task → Bool) (r : Nat) (now : Int) (ts : List Task) :
    (∀ t ∈ (scanLoop net r now ts).store, t ∈ ts)
    ∧ (∀ e ∈ (scanLoop net r now ts).log,
        e.task ∈ ts ∧ e.task.settings_time ≤ now) :=
  scanLoopAux_basic net r now ts.length ts 0

theorem scanLoop_nodup (net : Task → Bool) (r : Nat) (now : Int) (ts : List Task)
    (hnd : ts.Nodup) :
    (scanLoop net r now ts).store.Nodup
    ∧ ((scanLoop net r now ts).log.map (fun e => e.task)).Nodup
    ∧ ((scanLoop net r now ts).err = Option.none →
        ∀ e ∈ (scanLoop net r now ts).log, e.task ∉ (scanLoop net r now ts).store) :=
  scanLoopAux_nodup net r now ts.length ts 0 hnd

/-- Lift of the scan invariants to `k` cycles of the scheduler loop: the
store stays duplicate-free and shrinks, every attempted task came from the
initial store, no task is attempted twice across the whole run, and when no
exception occurred every attempted task has left the store. -/
theorem runScans_inv (net : Task → Bool) (r : Nat) (T : Int) :
    ∀ (k : Nat) (t0 : Int) (ts : List Task), ts.Nodup →
      (runScans net r T k t0 ts).store.Nodup
      ∧ (∀ t ∈ (runScans net r T k t0 ts).store, t ∈ ts)
      ∧ (∀ e ∈ (runScans net r T k t0 ts).log, e.2.task ∈ ts)
      ∧ ((runScans net r T k t0 ts).log.map (fun e => e.2.task)).Nodup
      ∧ ((runScans net r T k t0 ts).err = Option.none →
          ∀ e ∈ (runScans net r T k t0 ts).log,
            e.2.task ∉ (runScans net r T k t0 ts).store) := by
  intro k
  induction k with
  | zero =>
    intro t0 ts hnd
    simp [runScans, hnd]
  | succ k ihk =>
    intro t0 ts hnd
    have hb := scanLoop_basic net r t0 ts
    have hn := scanLoop_nodup net r t0 ts hnd
    rcases hserr : (scanLoop net r t0 ts).err with _ | err
    · -- the scan finished; the loop sleeps and scans again
      have ihr := ihk (t0 + T) (scanLoop net r t0 ts).store hn.1
      simp only [runScans, hserr]
      refine ⟨ihr.1, ?_, ?_, ?_, ?_⟩
      · intro t ht
        exact hb.1 t (ihr.2.1 t ht)
      · intro e he
        rcases List.mem_append.mp he with hl | hr
        · rcases List.mem_map.mp hl with ⟨ev, hev, rfl⟩
          exact (hb.2 ev hev).1
        · exact hb.1 _ (ihr.2.2.1 e hr)
      · rw [List.map_append, List.map_map]
        have hstamped :
            ((scanLoop net r t0 ts).log.map
              ((fun e : Int × DispatchEvent => e.2.task) ∘ fun ev => (t0, ev)))
              = (scanLoop net r t0 ts).log.map (fun e => e.task) := rfl
        rw [hstamped]
        refine List.Nodup.append hn.2.1 ihr.2.2.2.1 ?_
        rw [List.disjoint_left]
        intro a ha hmem2
        rcases List.mem_map.mp ha with ⟨ev, hev, rfl⟩
        rcases List.mem_map.mp hmem2 with ⟨e2, he2, heq2⟩
        have hin : e2.2.task ∈ (scanLoop net r t0 ts).store := ihr.2.2.1 e2 he2
        have hout := hn.2.2 hserr ev hev
        exact hout (heq2 ▸ hin)
      · intro hnone e he
        rcases List.mem_append.mp he with hl | hr
        · rcases List.mem_map.mp hl with ⟨ev, hev, rfl⟩
          intro hc
          exact hn.2.2 hserr ev hev (ihr.2.1 _ hc)
        · exact ihr.2.2.2.2 hnone e hr
    · -- the scan raised: the scheduler thread is dead
      simp only [runScans, hserr]
      refine ⟨hn.1, ?_, ?_, ?_, ?_⟩
      · exact hb.1
      · intro e he
        rcases List.mem_map.mp he with ⟨ev, hev, rfl⟩
        exact (hb.2 ev hev).1
      · rw [List.map_map]
        have hstamped :
            ((scanLoop net r t0 ts).log.map
              ((fun e : Int × DispatchEvent => e.2.task) ∘ fun ev => (t0, ev)))
              = (scanLoop net r t0 ts).log.map (fun e => e.task) := rfl
        rw [hstamped]
        exact hn.2.1
      · intro hnone
        exact Option.noConfusion hnone

/-- No dispatch attempt ever happens at a clock value strictly before the
task's deadline: the guard `task.settings_time <= time.time()` is checked
in every scan. -/
theorem runScans_no_early (net : Task → Bool) (r : Nat) (T : Int) :
    ∀ (k : Nat) (t0 : Int) (ts : List Task) (e : Int × DispatchEvent),
      e ∈ (runScans net r T k t0 ts).log → e.2.task.settings_time ≤ e.1 := by
  intro k
  induction k with
  | zero =>
    intro t0 ts e he
    simp [runScans] at he
  | succ k ihk =>
    intro t0 ts e he
    rcases hserr : (scanLoop net r t0 ts).err with _ | err
    · simp only [runScans, hserr] at he
      rcases List.mem_append.mp he with hl | hr
      · rcases List.mem_map.mp hl with ⟨ev, hev, rfl⟩
        exact ((scanLoop_basic net r t0 ts).2 ev hev).2
      · exact ihk (t0 + T) _ e hr
    · simp only [runScans, hserr] at he
      rcases List.mem_map.mp he with ⟨ev, hev, rfl⟩
      exact ((scanLoop_basic net r t0 ts).2 ev hev).2

/-- Once a scan has raised, the scheduler loop is dead: allowing any number
of further scan cycles changes nothing — no dispatch, no store mutation. -/
theorem runScans_stops_after_error (net : Task → Bool) (r : Nat) (T : Int) :
    ∀ (k j : Nat) (t0 : Int) (ts : List Task),
      (runScans net r T k t0 ts).err.isSome = true →
      runScans net r T (k + j) t0 ts = runScans net r T k t0 ts := by
  intro k
  induction k with
  | zero =>
    intro j t0 ts h
    simp [runScans] at h
  | succ k ihk =>
    intro j t0 ts h
    have hkj : k + 1 + j = (k + j) + 1 := by omega
    rw [hkj]
    rcases hserr : (scanLoop net r t0 ts).err with _ | e
    · simp only [runScans, hserr] at h ⊢
      rw [ihk j (t0 + T) (scanLoop net r t0 ts).store h]
    · simp only [runScans, hserr]

/-- Claim C1, counterexample: a scheduler pass picks the due task `taskA`
and attempts its dispatch (the attempt is in the log), yet after the pass
the task is still in the store — removal happens only after a successful
send (`__send_http` calls `remove_task` last), not atomically with or
before the dispatch decision. -/
theorem C1_counterexample :
    (scanLoop (fun _ => false) 0 0 [taskA]).log
      = [⟨taskA, .httpBareGet (.str "http://a.test/"), false⟩]
    ∧ taskA ∈ (scanLoop (fun _ => false) 0 0 [taskA]).store := by decide

/-- Claim C1, amended: removal happens after (not before) the send, but
dispatch is still at-most-once for the single scheduler loop: starting from
a duplicate-free store, no task appears twice in the dispatch log of any
run — a successfully sent task is removed before the scan continues, and a
failed send kills the loop so nothing further is attempted — and in an
exception-free run every attempted task has left the store. -/
theorem C1_amended (net : Task → Bool) (r : Nat) (T : Int) (k : Nat) (t0 : Int)
    (ts : List Task) (h : ts.Nodup) :
    ((runScans net r T k t0 ts).log.map (fun e => e.2.task)).Nodup
    ∧ ((runScans net r T k t0 ts).err = Option.none →
        ∀ e ∈ (runScans net r T k t0 ts).log,
          e.2.task ∉ (runScans net r T k t0 ts).store) :=
  ⟨(runScans_inv net r T k t0 ts h).2.2.2.1,
   (runScans_inv net r T k t0 ts h).2.2.2.2⟩

/-- Claim C1, witness for the amended theorem on a two-task run. -/
theorem C1_witness :
    ((runScans (fun _ => true) 0 10 2 0 [taskA, taskB1]).log.map
        (fun e => e.2.task)).Nodup
    ∧ ((runScans (fun _ => true) 0 10 2 0 [taskA, taskB1]).err = Option.none →
        ∀ e ∈ (runScans (fun _ => true) 0 10 2 0 [taskA, taskB1]).log,
          e.2.task ∉ (runScans (fun _ => true) 0 10 2 0 [taskA, taskB1]).store) :=
  C1_amended (fun _ => true) 0 10 2 0 [taskA, taskB1] (by decide)

/-- Claim C2, counterexample: the spec's own scenario — a socket task
targeting `127.0.0.1:9` with no listener (network oracle refuses).  The
connect raises before `remove_task` is reached: the scan aborts with the
network error and the task is NOT removed from the store, even after
further scheduled cycles. -/
theorem C2_counterexample :
    scanLoop (fun _ => false) 0 0 [taskSock]
      = ⟨[taskSock], [⟨taskSock, .socketSend "127.0.0.1" 9 (.dict .nil), false⟩],
         some .netError⟩
    ∧ (runScans (fun _ => false) 0 10 3 0 [taskSock]).store = [taskSock] := by decide

/-- Claim C2, amended: when the network call of a due socket task fails,
the exception propagates out of `__send_socket` before `remove_task` runs:
the task stays in the store, the failure is the reported error of the run,
and the task is not retried only because the scheduler loop has died —
however many further cycles were scheduled, exactly one attempt is made. -/
theorem C2_amended (net : Task → Bool) (r k : Nat) (T t0 : Int) (t : Task)
    (host : String) (port : Int)
    (hdue : t.settings_time ≤ t0)
    (hty : t.address_type = .str "socket")
    (hparse : send_socket_parse t = .ok (host, port))
    (hnet : net t = false) :
    runScans net r T (k + 1) t0 [t]
      = ⟨[t], [(t0, ⟨t, .socketSend host port t.settings_data, false⟩)],
         some .netError⟩ := by
  have hscan : scanLoop net r t0 [t]
      = ⟨[t], [⟨t, .socketSend host port t.settings_data, false⟩], some .netError⟩ := by
    simp [scanLoop, scanLoopAux, hdue, hty, hparse, hnet]
  simp [runScans, hscan]

/-- Claim C2, witness for the amended theorem on the scenario task. -/
theorem C2_witness :
    runScans (fun _ => false) 0 10 (2 + 1) 0 [taskSock]
      = ⟨[taskSock],
         [(0, ⟨taskSock, .socketSend "127.0.0.1" 9 taskSock.settings_data, false⟩)],
         some .netError⟩ :=
  C2_amended (fun _ => false) 0 2 10 0 taskSock "127.0.0.1" 9
    (by decide) (by decide) (by decide) (by decide)

/-- Claim C3, counterexample: a dispatch failure on the socket task aborts
the scan and kills the loop — the due http task `taskA` behind it is never
attempted across three scheduled cycles, so per-task errors are not
isolated and the scheduler loop does not continue. -/
theorem C3_counterexample :
    (runScans (fun _ => false) 0 10 3 0 [taskSock, taskA]).err = some .netError
    ∧ (runScans (fun _ => false) 0 10 3 0 [taskSock, taskA]).log.length = 1
    ∧ taskA ∈ (runScans (fun _ => false) 0 10 3 0 [taskSock, taskA]).store := by decide

/-- Claim C3, amended: an exception inside one dispatch attempt is NOT
caught (`_manage` has no `try`/`except`): it propagates, terminates the
scheduler loop, and the failing task is not consumed.  Formally, once a run
has ended in an error, allowing any number of additional scan cycles leaves
the store, the log and the error unchanged. -/
theorem C3_amended (net : Task → Bool) (r : Nat) (T : Int) (k j : Nat) (t0 : Int)
    (ts : List Task) (h : (runScans net r T k t0 ts).err.isSome = true) :
    runScans net r T (k + j) t0 ts = runScans net r T k t0 ts :=
  runScans_stops_after_error net r T k j t0 ts h

/-- Claim C3, witness: the one-cycle erroring run of the socket task is
unchanged by five more cycles. -/
theorem C3_witness :
    runScans (fun _ => false) 0 10 (1 + 5) 0 [taskSock]
      = runScans (fun _ => false) 0 10 1 0 [taskSock] :=
  C3_amended (fun _ => false) 0 10 1 5 0 [taskSock] (by decide)

/-- Claim C8, counterexample: `taskB1` and `taskB2` are both due at instant
5 with the scheduler scanning every 10 from instant 0, yet `taskB2` fires
only at instant 20 — later than one poll interval after its deadline
(5 + 10 = 15 < 20) — because removing `taskB1` during the scan at instant
10 shifts the live list and the iterator skips `taskB2`. -/
theorem C8_counterexample :
    runScans (fun _ => true) 0 10 3 0 [taskB1, taskB2]
      = ⟨[], [(10, ⟨taskB1, .httpBareGet (.str "http://b1.test/"), true⟩),
              (20, ⟨taskB2, .httpBareGet (.str "http://b2.test/"), true⟩)],
         Option.none⟩
    ∧ taskB2.settings_time + 10 < 20 := by decide

/-- Claim C8, amended: a task is never dispatched at a clock value strictly
before its deadline (the guard `settings_time <= time.time()` is checked on
every pass); the "within one poll interval" bound does not hold, because a
scan that removes a task skips the next element of the live list (and a
failed dispatch stops all scanning). -/
theorem C8_amended (net : Task → Bool) (r : Nat) (T : Int) (k : Nat) (t0 : Int)
    (ts : List Task) (e : Int × DispatchEvent)
    (he : e ∈ (runScans net r T k t0 ts).log) :
    e.2.task.settings_time ≤ e.1 :=
  runScans_no_early net r T k t0 ts e he

/-- Claim C8, witness: the dispatch of `taskB1` recorded at instant 10 is
not early. -/
theorem C8_witness : taskB1.settings_time ≤ 10 :=
  C8_amended (fun _ => true) 0 10 1 10 [taskB1]
    (10, ⟨taskB1, .httpBareGet (.str "http://b1.test/"), true⟩) (by decide)

end QTask
